import Mathlib

/-!
# Fake device plugin: a verification development

A shallow embedding of `server.go` and `main.go` of the fake Kubernetes device
plugin, with theorems about its crash-loop supervision, its lifecycle loop, the
`Stop` operation, `Allocate`, the device registry, `ListAndWatch` and the socket
path convention.

Conventions of the embedding:

* Go strings are lists of characters (`GoString`); literals are written
  `"...".toList`.  The characters the program looks for (`/`, `.`, `,`, `-`) are
  ASCII, so working on characters agrees with Go's working on the bytes of
  UTF-8 text.
* Functions of the Go standard library (`strings.Join`, `strings.ReplaceAll`,
  `filepath.Join`, `filepath.Clean`, `path.Base`) and the constants of the
  Kubernetes device plugin API and of `fsnotify` are not part of the repository;
  they are embedded from their own sources, for a Unix system.
* A Go `error` result is `Option Err`, `none` standing for `nil`.
* A Go panic (closing a closed channel, a method call through a nil pointer) is
  the `none` of an `Option` result, or the `panicked` program point of the
  lifecycle loop.
* What the operating system decides (whether a socket can be removed, bound or
  dialled, which event a `select` receives, when `Serve` returns) is an explicit
  argument of the function that observes it.
* Clock readings are integers in nanoseconds.  `time.Since(t).Seconds() > 3600`
  compares a float64, but `Seconds` returns `float64(sec) + float64(nsec)/1e9`
  for the whole seconds and the remaining nanoseconds of the duration, and the
  spacing of float64 around 3600 is below `10^-12`, so the comparison holds
  exactly when the elapsed nanoseconds exceed `3600 * 10^9`; that integer
  comparison is what the embedding uses.
-/

namespace DevicePlugin

/-! ## Server supervision loop (`Start`, the goroutine of lines 107-132) -/

/-- Clock reading or duration, in nanoseconds. -/
abbrev Nanos := Int

/-- One hour, the `3600` seconds of the source, in nanoseconds. -/
def hourNanos : Nanos := 3600 * 1000000000

/-- Local variables of the supervision goroutine. -/
structure Supervisor where
  lastCrashTime : Nanos
  restartCount : Nat
  deriving DecidableEq, Repr

/-- State of the goroutine when it is launched at clock reading `start`:
`lastCrashTime := time.Now()`, `restartCount := 0`. -/
def Supervisor.init (start : Nanos) : Supervisor :=
  { lastCrashTime := start, restartCount := 0 }

/-- The two clock readings of one pass through the loop body: the one inside
`time.Since(lastCrashTime)` and the one of the following
`lastCrashTime = time.Now()`. -/
structure ServeReturn where
  sinceAt : Nanos
  nowAt : Nanos
  deriving DecidableEq, Repr

/-- A return of `Serve` both of whose clock readings are `t`. -/
def ServeReturn.at (t : Nanos) : ServeReturn := { sinceAt := t, nowAt := t }

/-- The body of the supervision loop after `m.server.Serve(sock)` has returned,
with the clock readings `r`.  `none` is `klog.Fatal` (the process exits); `some s`
is the state with which the loop calls `Serve` again. -/
def onServeReturn (s : Supervisor) (r : ServeReturn) : Option Supervisor :=
  if s.restartCount > 5 then
    none
  else
    let timeSinceLastCrash := r.sinceAt - s.lastCrashTime
    let lastCrashTime := r.nowAt
    if timeSinceLastCrash > hourNanos then
      some { lastCrashTime := lastCrashTime, restartCount := 1 }
    else
      some { lastCrashTime := lastCrashTime, restartCount := s.restartCount + 1 }

/-- Runs the supervision loop over the successive returns of `Serve`.  The result
is the state after the last return, or `none` when the process has exited on one
of them. -/
def supervise (s : Supervisor) : List ServeReturn → Option Supervisor
  | [] => some s
  | r :: rest =>
    match onServeReturn s r with
    | none => none
    | some s' => supervise s' rest

/-- The 1-based position of the return on which the process exits fatally, or
`none` when it survives all the returns. -/
def fatalReturn (s : Supervisor) : List ServeReturn → Option Nat
  | [] => none
  | r :: rest =>
    match onServeReturn s r with
    | none => some 1
    | some s' => (fatalReturn s' rest).map (· + 1)

/-- The clock does not go backwards over the readings of the returns, the first
compared with `last`. -/
def Chronological (last : Nanos) : List ServeReturn → Prop
  | [] => True
  | r :: rest => last ≤ r.sinceAt ∧ r.sinceAt ≤ r.nowAt ∧ Chronological r.nowAt rest

/-- States the supervision loop can be in while `Serve` is running, for a
goroutine launched at `start`: those reached from the initial state over some
returns of `Serve` that were not fatal. -/
def SupervisorReachable (start : Nanos) (s : Supervisor) : Prop :=
  ∃ rs : List ServeReturn, Chronological start rs ∧ supervise (Supervisor.init start) rs = some s

/-- Every return comes less than one hour after the previous one (the first less
than one hour after `last`), and the clock does not go backwards. -/
def QuickReturns (last : Nanos) : List ServeReturn → Prop
  | [] => True
  | r :: rest =>
    last ≤ r.sinceAt ∧ r.sinceAt ≤ r.nowAt ∧ r.sinceAt - last < hourNanos ∧
      QuickReturns r.nowAt rest

instance (last : Nanos) (rs : List ServeReturn) : Decidable (QuickReturns last rs) := by
  induction rs generalizing last with
  | nil => exact isTrue trivial
  | cons r rest ih => unfold QuickReturns; exact inferInstance

instance (last : Nanos) (rs : List ServeReturn) : Decidable (Chronological last rs) := by
  induction rs generalizing last with
  | nil => exact isTrue trivial
  | cons r rest ih => unfold Chronological; exact inferInstance

/-! ## Strings and paths (Go standard library, as used by the plugin) -/

/-- Go string. -/
abbrev GoString := List Char

/-- The Go call `strings.ReplaceAll(s, old, new)` for one-character `old` and
`new`: every occurrence of `old` becomes `new`. -/
def replaceAll (s : GoString) (old new : Char) : GoString :=
  s.map (fun c => if c = old then new else c)

/-- The Go function `strings.Join`: no element gives the empty string, one
element gives that element, otherwise the first element followed by separator and
element for each of the others. -/
def stringsJoin (elems : List GoString) (sep : GoString) : GoString :=
  match elems with
  | [] => []
  | [e] => e
  | e :: rest => rest.foldl (fun b s => b ++ sep ++ s) e

/-- The verb `%d` of `fmt.Sprintf` applied to a non-negative integer. -/
def formatDecimal (i : Nat) : GoString := Nat.toDigits 10 i

/-- Whether the rest of a path ends the current element: the path is over or a
separator follows (`r+1 == n || os.IsPathSeparator(path[r+1])`). -/
def elementEnds : GoString → Bool
  | [] => true
  | c :: _ => c == '/'

/-- The backtracking of `filepath.Clean` on a `..` element, started after the
first `out.w--`: `for out.w > dotdot && !os.IsPathSeparator(out.index(out.w))
\x7b out.w-- \x7d`.  The result is the new write position. -/
def backtrack (out : GoString) (dotdot : Nat) : Nat → Nat
  | 0 => 0
  | w + 1 =>
    if w + 1 > dotdot ∧ out.getD (w + 1) ' ' ≠ '/' then backtrack out dotdot w else w + 1

/-- The main loop of `filepath.Clean` over the unread rest of the path.  `out` is
the output written so far, `dotdot` the position up to which `..` may not
backtrack, and `inElem` tells that the loop copying a real path element is
running. -/
def cleanLoop (rooted : Bool) : Bool → GoString → Nat → GoString → GoString
  | _, out, _, [] => out
  | true, out, dotdot, c :: rest =>
    if c = '/' then cleanLoop rooted false out dotdot rest
    else cleanLoop rooted true (out ++ [c]) dotdot rest
  | false, out, _, [c] =>
    if c = '/' then out
    else if c = '.' then out
    else if (rooted && out.length != 1) || (!rooted && out.length != 0) then out ++ ['/', c]
    else out ++ [c]
  | false, out, dotdot, c :: c2 :: rest =>
    if c = '/' then cleanLoop rooted false out dotdot (c2 :: rest)
    else if c = '.' ∧ c2 = '/' then cleanLoop rooted false out dotdot (c2 :: rest)
    else if c = '.' ∧ c2 = '.' ∧ elementEnds rest = true then
      if out.length > dotdot then
        cleanLoop rooted false (out.take (backtrack out dotdot (out.length - 1))) dotdot rest
      else if !rooted then
        let out1 := if out.length > 0 then out ++ ['/'] else out
        cleanLoop rooted false (out1 ++ ['.', '.']) (out1.length + 2) rest
      else cleanLoop rooted false out dotdot rest
    else
      let out1 :=
        if (rooted && out.length != 1) || (!rooted && out.length != 0) then out ++ ['/']
        else out
      cleanLoop rooted true (out1 ++ [c]) dotdot (c2 :: rest)

/-- The Go function `filepath.Clean` on a Unix system (no volume name, separator
`/`). -/
def Clean (path : GoString) : GoString :=
  if path = [] then ['.']
  else
    let rooted := path.head? == some '/'
    let out := if rooted then cleanLoop true false ['/'] 1 (path.drop 1)
      else cleanLoop false false [] 0 path
    if out = [] then ['.'] else out

/-- The Go function `filepath.Join`: leading empty elements are dropped, the rest
is joined with the separator and cleaned; no non-empty element gives the empty
string. -/
def filepathJoin : List GoString → GoString
  | [] => []
  | e :: rest => if e = [] then filepathJoin rest else Clean (stringsJoin (e :: rest) ['/'])

/-- The Go function `path.Base`: the last element of the path, after removing
trailing slashes; `.` for the empty path and `/` for a path of slashes only. -/
def pathBase (path : GoString) : GoString :=
  if path = [] then ['.']
  else
    let stripped := (path.reverse.dropWhile (fun c => c == '/')).reverse
    let last := (stripped.reverse.takeWhile (fun c => c != '/')).reverse
    if last = [] then ['/'] else last

/-! ## Data model (`pluginapi` messages and `FakeDevicePlugin`) -/

/-- The constant `pluginapi.Healthy`. -/
def Healthy : GoString := "Healthy".toList

/-- The constant `pluginapi.Unhealthy`. -/
def Unhealthy : GoString := "Unhealthy".toList

/-- The constant `pluginapi.DevicePluginPath` of the Kubernetes device plugin API
(`v1beta1`), the device-plugin directory, written with its trailing slash as it is
there. -/
def DevicePluginPath : GoString := "/var/lib/kubelet/device-plugins/".toList

/-- The constant `pluginapi.KubeletSocket`, the node agent's socket path:
`DevicePluginPath + "kubelet.sock"`. -/
def KubeletSocket : GoString := DevicePluginPath ++ "kubelet.sock".toList

/-- The constant `pluginapi.Version`. -/
def Version : GoString := "v1beta1".toList

/-- The message `pluginapi.Device`. -/
structure Device where
  ID : GoString
  Health : GoString
  deriving DecidableEq, Repr

/-- A Go channel used only for its close, as `stop` is. -/
structure Chan where
  closed : Bool
  deriving DecidableEq, Repr

/-- The Go builtin `close`: closing a closed channel panics (`none`). -/
def Chan.close (c : Chan) : Option Chan :=
  if c.closed then none else some { closed := true }

/-- The handle `*grpc.Server`; the server behind it has no state of interest. -/
structure GrpcServer where
  deriving DecidableEq, Repr

/-- Go errors the plugin can meet, by the call that produced them. -/
inductive Err where
  | remove
  | listen
  | dial
  | register
  deriving DecidableEq, Repr

/-- The struct `FakeDevicePlugin`.  `devs` holds the pointed-to devices in slice
order, so the pointer to the i-th device of the registry is the index `i`.  The
unbuffered `health` channel carries no state and has no field. -/
structure FakeDevicePlugin where
  name : GoString
  devs : List Device
  socket : GoString
  stop : Chan
  server : Option GrpcServer
  deriving DecidableEq, Repr

/-- The loop `for i := 0; i < num; i++ \x7b devs = append(devs, ...) \x7d` of
`NewFakeDevicePlugin`, with `fuel` bounding the iterations still allowed. -/
def newDevicesLoop (rName : GoString) (num : Int) : Nat → Nat → List Device → List Device
  | 0, _, devs => devs
  | fuel + 1, i, devs =>
    if (i : Int) < num then
      newDevicesLoop rName num fuel (i + 1)
        (devs ++ [{ ID := rName ++ ['-'] ++ formatDecimal i, Health := Healthy }])
    else devs

/-- The function `NewFakeDevicePlugin`.  The loop gets `num.toNat` iterations, the
number after which its guard `i < num` fails. -/
def NewFakeDevicePlugin (rName : GoString) (num : Int) : FakeDevicePlugin :=
  { devs := newDevicesLoop rName num num.toNat 0 []
    name := rName
    socket := filepathJoin [DevicePluginPath, replaceAll rName '/' '-' ++ "-fake.sock".toList]
    stop := { closed := false }
    server := none }

/-- What `os.Remove(m.socket)` reports. -/
inductive RemoveResult where
  | removed
  | notExist
  | failed
  deriving DecidableEq, Repr

/-- The method `cleanup`: an error of `os.Remove` other than "does not exist" is
returned. -/
def cleanup (r : RemoveResult) : Option Err :=
  match r with
  | RemoveResult.failed => some Err.remove
  | _ => none

/-- The method `Start`, given what removing the stale socket reports and whether
binding and the readiness dial succeed.  The supervision goroutine it launches is
`supervise`. -/
def Start (m : FakeDevicePlugin) (rm : RemoveResult) (listenOk dialOk : Bool) :
    FakeDevicePlugin × Option Err :=
  match cleanup rm with
  | some err => (m, some err)
  | none =>
    if !listenOk then (m, some Err.listen)
    else
      let m1 := { m with server := some {} }
      if !dialOk then (m1, some Err.dial) else (m1, none)

/-- The method `Stop`, given what removing the socket reports.  `none` is the
panic of closing a closed channel. -/
def Stop (m : FakeDevicePlugin) (rm : RemoveResult) :
    Option (FakeDevicePlugin × Option Err) :=
  match m.server with
  | none => some (m, none)
  | some _ =>
    match m.stop.close with
    | none => none
    | some c => some ({ m with server := none, stop := c }, cleanup rm)

/-- The message `pluginapi.RegisterRequest`. -/
structure RegisterRequest where
  Version : GoString
  Endpoint : GoString
  ResourceName : GoString
  deriving DecidableEq, Repr

/-- The request built by `Register`. -/
def registerRequest (m : FakeDevicePlugin) (resourceName : GoString) : RegisterRequest :=
  { Version := Version, Endpoint := pathBase m.socket, ResourceName := resourceName }

/-- The method `Register`, given whether the dial and the call succeed: the
request sent to the node agent, if any, and the error returned. -/
def Register (m : FakeDevicePlugin) (resourceName : GoString) (dialOk callOk : Bool) :
    Option RegisterRequest × Option Err :=
  if !dialOk then (none, some Err.dial)
  else if !callOk then (some (registerRequest m resourceName), some Err.register)
  else (some (registerRequest m resourceName), none)

/-- What the environment answers during one `Serve` call. -/
structure ServeEnv where
  startRemove : RemoveResult
  listenOk : Bool
  startDialOk : Bool
  registerDialOk : Bool
  registerCallOk : Bool
  stopRemove : RemoveResult
  deriving DecidableEq, Repr

/-- The method `Serve`.  `none` is a panic of the `Stop` it calls. -/
def Serve (m : FakeDevicePlugin) (env : ServeEnv) :
    Option (FakeDevicePlugin × Option Err) :=
  match Start m env.startRemove env.listenOk env.startDialOk with
  | (m1, some err) => some (m1, some err)
  | (m1, none) =>
    match (Register m1 m1.name env.registerDialOk env.registerCallOk).2 with
    | some err =>
      match Stop m1 env.stopRemove with
      | none => none
      | some (m2, _) => some (m2, some err)
    | none => some (m1, none)

/-! ## `ListAndWatch` -/

/-- What one `select` of `ListAndWatch` receives: the close of `stop`, or a device
pointer from `health`.  The pointer is the index of the device in the registry; an
index outside the registry stands for a device that is not in it. -/
inductive WatchEvent where
  | stop
  | health (d : Nat)
  deriving DecidableEq, Repr

/-- The assignment `d.Health = pluginapi.Unhealthy` through the pointer `d`, seen
from the registry. -/
def markUnhealthy : List Device → Nat → List Device
  | [], _ => []
  | dev :: rest, 0 => { dev with Health := Unhealthy } :: rest
  | dev :: rest, d + 1 => dev :: markUnhealthy rest d

/-- What a `ListAndWatch` call has done once the given events are consumed:
the responses sent, the registry, and the return value (`none` while the call is
still blocked in `select`, `some none` for `return nil`). -/
structure WatchResult where
  sent : List (List Device)
  devs : List Device
  returned : Option (Option Err)
  deriving DecidableEq, Repr

/-- The `for \x7b select ... \x7d` loop of `ListAndWatch`. -/
def watchLoop (devs : List Device) (sent : List (List Device)) : List WatchEvent → WatchResult
  | [] => { sent := sent, devs := devs, returned := none }
  | WatchEvent.stop :: _ => { sent := sent, devs := devs, returned := some none }
  | WatchEvent.health d :: rest =>
    let devs1 := markUnhealthy devs d
    watchLoop devs1 (sent ++ [devs1]) rest

/-- The method `ListAndWatch` over the events its `select` receives in turn. -/
def ListAndWatch (m : FakeDevicePlugin) (events : List WatchEvent) : WatchResult :=
  watchLoop m.devs [m.devs] events

/-! ## `Allocate` -/

/-- The message `pluginapi.ContainerAllocateRequest`. -/
structure ContainerAllocateRequest where
  DevicesIDs : List GoString
  deriving DecidableEq, Repr

/-- The message `pluginapi.AllocateRequest`. -/
structure AllocateRequest where
  ContainerRequests : List ContainerAllocateRequest
  deriving DecidableEq, Repr

/-- The message `pluginapi.ContainerAllocateResponse`; a Go map is a list of
key-value pairs with distinct keys.  The fields `Allocate` leaves empty are
omitted. -/
structure ContainerAllocateResponse where
  Envs : List (GoString × GoString)
  deriving DecidableEq, Repr

/-- The message `pluginapi.AllocateResponse`. -/
structure AllocateResponse where
  ContainerResponses : List ContainerAllocateResponse
  deriving DecidableEq, Repr

/-- Reading a Go map at a key. -/
def mapLookup (m : List (GoString × GoString)) (key : GoString) : Option GoString :=
  (m.find? (fun kv => kv.1 == key)).map (fun kv => kv.2)

/-- The `for _, req := range reqs.ContainerRequests` loop of `Allocate`. -/
def allocateLoop (responses : AllocateResponse) :
    List ContainerAllocateRequest → AllocateResponse
  | [] => responses
  | req :: rest =>
    let response : ContainerAllocateResponse :=
      { Envs := [("NVIDIA_VISIBLE_DEVICES".toList, stringsJoin req.DevicesIDs [','])] }
    allocateLoop { ContainerResponses := responses.ContainerResponses ++ [response] } rest

/-- The method `Allocate`; it reads nothing of the plugin. -/
def Allocate (_m : FakeDevicePlugin) (reqs : AllocateRequest) : AllocateResponse × Option Err :=
  (allocateLoop { ContainerResponses := [] } reqs.ContainerRequests, none)

/-! ## Lifecycle Manager (`main`) -/

/-- An `os.Signal`: the four signals `main` passes to `newOSWatcher`, or any other
signal by its number. -/
inductive Signal where
  | SIGHUP
  | SIGINT
  | SIGTERM
  | SIGQUIT
  | other (number : Nat)
  deriving DecidableEq, Repr

/-- The struct `fsnotify.Event`; `Op` is a bit mask. -/
structure FsEvent where
  Name : GoString
  Op : Nat
  deriving DecidableEq, Repr

/-- The constant `fsnotify.Create`, the lowest bit of the mask. -/
def fsnotifyCreate : Nat := 1

/-- What the `select` of `main` receives. -/
inductive Event where
  | fs (event : FsEvent)
  | watcherError
  | sig (s : Signal)
  deriving DecidableEq, Repr

/-- The flags `-resource-name` and `-resource-num`. -/
structure Flags where
  resourceName : GoString
  resourceNum : Int
  deriving DecidableEq, Repr

/-- Program points of the loop `L` of `main`: the `if restart` at its top, the
call of `NewFakeDevicePlugin` (the previous instance has been stopped), the call
of `Serve` on the new instance, the `select`, the end of the loop after
`break L`, and a panic. -/
inductive PC where
  | loopTop
  | construct
  | serve
  | select
  | exited
  | panicked
  deriving DecidableEq, Repr

/-- State of `main` in its loop.  `retired` is not a variable of the program: it
lists the instances `devicePlugin` pointed to before, newest first. -/
structure MainState where
  pc : PC
  restart : Bool
  devicePlugin : Option FakeDevicePlugin
  retired : List FakeDevicePlugin
  deriving DecidableEq, Repr

/-- State of `main` when it enters the loop: `restart := true`, `devicePlugin`
nil. -/
def MainState.init : MainState :=
  { pc := PC.loopTop, restart := true, devicePlugin := none, retired := [] }

/-- What the environment answers to one step of `main`; a step reads only the
answer its program point asks for. -/
structure StepEnv where
  stopRemove : RemoveResult
  serve : ServeEnv
  event : Event
  deriving DecidableEq, Repr

/-- The body of the `select` of `main` on one received event.  A call of `Stop`
through a nil `devicePlugin`, or a panic inside `Stop`, gives `panicked`. -/
def handleEvent (s : MainState) (env : StepEnv) : MainState :=
  match env.event with
  | Event.fs event =>
    if event.Name = KubeletSocket ∧ event.Op &&& fsnotifyCreate = fsnotifyCreate then
      { s with pc := PC.loopTop, restart := true }
    else { s with pc := PC.loopTop }
  | Event.watcherError => { s with pc := PC.loopTop }
  | Event.sig Signal.SIGHUP => { s with pc := PC.loopTop, restart := true }
  | Event.sig _ =>
    match s.devicePlugin with
    | none => { s with pc := PC.panicked }
    | some m =>
      match Stop m env.stopRemove with
      | none => { s with pc := PC.panicked }
      | some (m1, _) => { s with pc := PC.exited, devicePlugin := some m1 }

/-- One step of the loop of `main`. -/
def step (flags : Flags) (s : MainState) (env : StepEnv) : MainState :=
  match s.pc with
  | PC.loopTop =>
    if s.restart then
      match s.devicePlugin with
      | none => { s with pc := PC.construct }
      | some m =>
        match Stop m env.stopRemove with
        | none => { s with pc := PC.panicked }
        | some (m1, _) => { s with pc := PC.construct, devicePlugin := some m1 }
    else { s with pc := PC.select }
  | PC.construct =>
    { s with
      pc := PC.serve
      devicePlugin := some (NewFakeDevicePlugin flags.resourceName flags.resourceNum)
      retired := s.devicePlugin.toList ++ s.retired }
  | PC.serve =>
    match s.devicePlugin with
    | none => { s with pc := PC.panicked }
    | some m =>
      match Serve m env.serve with
      | none => { s with pc := PC.panicked }
      | some (m1, some _) => { s with pc := PC.select, devicePlugin := some m1 }
      | some (m1, none) => { s with pc := PC.select, devicePlugin := some m1, restart := false }
  | PC.select => handleEvent s env
  | PC.exited => s
  | PC.panicked => s

/-- Runs `main` from a state over the answers of the environment, one per step. -/
def run (flags : Flags) (s : MainState) (envs : List StepEnv) : MainState :=
  envs.foldl (step flags) s

/-- Whether the instance holds a running-server handle. -/
def FakeDevicePlugin.hasServer (m : FakeDevicePlugin) : Bool := m.server.isSome

/-- All instances created so far: the current one and the retired ones. -/
def MainState.instances (s : MainState) : List FakeDevicePlugin :=
  s.devicePlugin.toList ++ s.retired

/-- Applies `Stop` a number of times in a row, each with its own answer of the
file system; `none` is a panic.  The result lists the error returned by each
call. -/
def stopMany (m : FakeDevicePlugin) :
    List RemoveResult → Option (FakeDevicePlugin × List (Option Err))
  | [] => some (m, [])
  | rm :: rest =>
    match Stop m rm with
    | none => none
    | some (m1, err) =>
      match stopMany m1 rest with
      | none => none
      | some (m2, errs) => some (m2, err :: errs)

/-- How many of the `Stop` calls in a row execute `close(m.stop)` (whether or not
the close panics): a call does when the instance holds a server handle, and a
panic ends the row. -/
def closeCalls (m : FakeDevicePlugin) : List RemoveResult → Nat
  | [] => 0
  | rm :: rest =>
    (if m.server.isSome then 1 else 0) +
      match Stop m rm with
      | none => 0
      | some (m1, _) => closeCalls m1 rest

/-! ## Auxiliary definitions for the statements -/

/-- The registry after each of the health events in turn. -/
def registryAfter : List Device → List Nat → List (List Device)
  | _, [] => []
  | devs, d :: ds => markUnhealthy devs d :: registryAfter (markUnhealthy devs d) ds

/-- What holds of every state the loop of `main` reaches. -/
def MainInv (flags : Flags) (s : MainState) : Prop :=
  s.pc ≠ PC.panicked ∧
  (∀ m ∈ s.retired, m.server = none) ∧
  (∀ m, s.devicePlugin = some m → m.server.isSome = true → m.stop.closed = false) ∧
  (s.pc = PC.loopTop → s.devicePlugin = none → s.restart = true) ∧
  (s.pc = PC.construct → s.restart = true ∧ ∀ m, s.devicePlugin = some m → m.server = none) ∧
  (s.pc = PC.serve → s.restart = true ∧
    s.devicePlugin = some (NewFakeDevicePlugin flags.resourceName flags.resourceNum)) ∧
  (s.pc = PC.select → s.devicePlugin ≠ none) ∧
  (s.pc = PC.exited → ∃ m, s.devicePlugin = some m ∧ m.server = none)

/-! ## Example inputs -/

/-- Flags of the end-to-end scenario: resource `acme.test/widget`, two devices. -/
def exampleFlags : Flags :=
  { resourceName := "acme.test/widget".toList, resourceNum := 2 }

/-- An environment in which `Serve` succeeds. -/
def serveOk : ServeEnv :=
  { startRemove := RemoveResult.notExist, listenOk := true, startDialOk := true,
    registerDialOk := true, registerCallOk := true, stopRemove := RemoveResult.removed }

/-- An environment in which the node agent cannot be dialled, so `Register`
fails. -/
def serveNoKubelet : ServeEnv :=
  { startRemove := RemoveResult.notExist, listenOk := true, startDialOk := true,
    registerDialOk := false, registerCallOk := false, stopRemove := RemoveResult.removed }

/-- An answer of the environment with the given `Serve` answers and event. -/
def stepEnv (serve : ServeEnv) (event : Event) : StepEnv :=
  { stopRemove := RemoveResult.removed, serve := serve, event := event }

/-- The instance of the end-to-end scenario after a successful `Start`. -/
def startedPlugin : FakeDevicePlugin :=
  (Start (NewFakeDevicePlugin "acme.test/widget".toList 2) RemoveResult.notExist true true).1

/-! ## Theorems: server supervision loop -/

/-- A return of `Serve` is fatal exactly when the count already exceeds five; the
clock plays no part in that decision. -/
theorem onServeReturn_eq_none_iff (s : Supervisor) (r : ServeReturn) :
    onServeReturn s r = none ↔ 5 < s.restartCount := by
  unfold onServeReturn
  by_cases h : s.restartCount > 5
  · simp [h]
  · constructor
    · intro hn
      simp only [h, if_false] at hn
      split at hn <;> simp at hn
    · intro h5
      exact absurd h5 h

/-- With the count at most five, a return at most an hour after the previous one
increments the count. -/
theorem onServeReturn_quick (s : Supervisor) (r : ServeReturn) (hc : s.restartCount ≤ 5)
    (hq : r.sinceAt - s.lastCrashTime ≤ hourNanos) :
    onServeReturn s r =
      some { lastCrashTime := r.nowAt, restartCount := s.restartCount + 1 } := by
  unfold onServeReturn
  have h1 : ¬ s.restartCount > 5 := by omega
  have h2 : ¬ r.sinceAt - s.lastCrashTime > hourNanos := not_lt.mpr hq
  simp [h1, h2]

/-- With the count at most five, a return more than an hour after the previous
one sets the count to one. -/
theorem onServeReturn_slow (s : Supervisor) (r : ServeReturn) (hc : s.restartCount ≤ 5)
    (hq : hourNanos < r.sinceAt - s.lastCrashTime) :
    onServeReturn s r = some { lastCrashTime := r.nowAt, restartCount := 1 } := by
  unfold onServeReturn
  have h1 : ¬ s.restartCount > 5 := by omega
  simp [h1, hq]

/-- A non-fatal return leaves a count of at most six. -/
theorem onServeReturn_count_le (s s' : Supervisor) (r : ServeReturn)
    (h : onServeReturn s r = some s') : s'.restartCount ≤ 6 := by
  unfold onServeReturn at h
  by_cases h1 : s.restartCount > 5
  · simp [h1] at h
  · simp only [h1, if_false] at h
    split at h
    · cases h; simp
    · cases h; simp; omega

/-- The count never exceeds six while the loop runs. -/
theorem supervise_count_le (rs : List ServeReturn) :
    ∀ s s' : Supervisor, s.restartCount ≤ 6 → supervise s rs = some s' → s'.restartCount ≤ 6 := by
  induction rs with
  | nil =>
    intro s s' hs h
    simp [supervise] at h
    subst h
    exact hs
  | cons r rest ih =>
    intro s s' _ h
    unfold supervise at h
    cases hr : onServeReturn s r with
    | none => simp [hr] at h
    | some s1 =>
      simp only [hr] at h
      exact ih s1 s' (onServeReturn_count_le s s1 r hr) h

/-- Quick returns that fill the budget up to six are all survived, and whatever
return comes next is fatal. -/
theorem quick_returns_fill_budget (rs : List ServeReturn) :
    ∀ s : Supervisor, QuickReturns s.lastCrashTime rs → s.restartCount + rs.length = 6 →
      ∀ next : ServeReturn, fatalReturn s rs = none ∧
        fatalReturn s (rs ++ [next]) = some (rs.length + 1) := by
  induction rs with
  | nil =>
    intro s _ hc next
    have hf : onServeReturn s next = none :=
      (onServeReturn_eq_none_iff s next).2 (by simp at hc; omega)
    simp [fatalReturn, hf]
  | cons r rest ih =>
    intro s hq hc next
    obtain ⟨_, _, hgap, hrest⟩ := hq
    have hstep := onServeReturn_quick s r (by simp at hc; omega) (le_of_lt hgap)
    have hih := ih { lastCrashTime := r.nowAt, restartCount := s.restartCount + 1 } hrest
      (by simp at hc ⊢; omega) next
    exact ⟨by simp [fatalReturn, hstep, hih.1], by simp [fatalReturn, hstep, hih.2]⟩

/-- C1 (what the code does where the claim expects the exit): from
`restartCount = 0` and `lastCrashTime` the start of the task, six consecutive
returns of `Serve`, each less than 3600 seconds after the previous one (the first
less than 3600 seconds after the start), are all survived; the process exits on
the return after them, the seventh, whenever that one occurs. -/
theorem supervise_exits_on_seventh_return (start : Nanos) (rs : List ServeReturn)
    (next : ServeReturn) (hlen : rs.length = 6) (hq : QuickReturns start rs) :
    fatalReturn (Supervisor.init start) rs = none ∧
      fatalReturn (Supervisor.init start) (rs ++ [next]) = some 7 := by
  have h := quick_returns_fill_budget rs (Supervisor.init start) hq
    (by simp [Supervisor.init, hlen]) next
  rw [hlen] at h
  exact h

/-- Six returns one second apart after a start at 0 are survived; a seventh, a
second later, is fatal. -/
theorem supervise_exits_on_seventh_return_witness :
    fatalReturn (Supervisor.init 0)
        [ServeReturn.at 1000000000, ServeReturn.at 2000000000, ServeReturn.at 3000000000,
          ServeReturn.at 4000000000, ServeReturn.at 5000000000, ServeReturn.at 6000000000] =
        none ∧
      fatalReturn (Supervisor.init 0)
        ([ServeReturn.at 1000000000, ServeReturn.at 2000000000, ServeReturn.at 3000000000,
          ServeReturn.at 4000000000, ServeReturn.at 5000000000, ServeReturn.at 6000000000]
          ++ [ServeReturn.at 7000000000]) = some 7 :=
  supervise_exits_on_seventh_return 0
    [ServeReturn.at 1000000000, ServeReturn.at 2000000000, ServeReturn.at 3000000000,
      ServeReturn.at 4000000000, ServeReturn.at 5000000000, ServeReturn.at 6000000000]
    (ServeReturn.at 7000000000) (by decide) (by decide)

/-- C2 (what the code does where the claim expects a reset): the state with
`restartCount = 6` is reached by six returns one second apart, and from it a
return two hours after `lastCrashTime` exits the process instead of setting the
count to one. -/
theorem slow_return_fatal_at_count_six :
    SupervisorReachable 0 { lastCrashTime := 6000000000, restartCount := 6 } ∧
      hourNanos < (ServeReturn.at 7206000000000).sinceAt - 6000000000 ∧
      onServeReturn { lastCrashTime := 6000000000, restartCount := 6 }
        (ServeReturn.at 7206000000000) = none := by
  refine ⟨⟨[ServeReturn.at 1000000000, ServeReturn.at 2000000000, ServeReturn.at 3000000000,
      ServeReturn.at 4000000000, ServeReturn.at 5000000000, ServeReturn.at 6000000000],
    by decide, by decide⟩, by decide, by decide⟩

/-- In every reachable state but the one with the count at six, a return more
than 3600 seconds after `lastCrashTime` is survived and sets the count to one. -/
theorem slow_return_resets_below_six (start : Nanos) (s : Supervisor) (r : ServeReturn)
    (hr : SupervisorReachable start s) (hne : s.restartCount ≠ 6)
    (hq : hourNanos < r.sinceAt - s.lastCrashTime) :
    onServeReturn s r = some { lastCrashTime := r.nowAt, restartCount := 1 } := by
  obtain ⟨rs, _, hrs⟩ := hr
  have h6 := supervise_count_le rs (Supervisor.init start) s (by simp [Supervisor.init]) hrs
  exact onServeReturn_slow s r (by omega) hq

/-! ## Theorems: device registry -/

/-- The device `NewFakeDevicePlugin` builds for index `i`, as the specification
writes it: identity `<name>-<i>` with `i` in decimal, health Healthy. -/
theorem newDevicesLoop_eq (rName : GoString) (num : Int) (fuel : Nat) :
    ∀ (i : Nat) (devs : List Device),
      newDevicesLoop rName num fuel i devs =
        devs ++ (List.range' i (min fuel (num.toNat - i))).map
          (fun j => ({ ID := rName ++ ['-'] ++ formatDecimal j, Health := Healthy } : Device)) := by
  induction fuel with
  | zero => intro i devs; simp [newDevicesLoop]
  | succ fuel ih =>
    intro i devs
    unfold newDevicesLoop
    by_cases h : (i : Int) < num
    · have hpos : min (fuel + 1) (num.toNat - i) = min fuel (num.toNat - (i + 1)) + 1 := by
        omega
      rw [if_pos h, ih, hpos, List.range'_succ]
      simp
    · have hz : num.toNat - i = 0 := by omega
      rw [if_neg h, hz]
      simp

/-- More fuel than `num.toNat` changes nothing: the loop of `NewFakeDevicePlugin`
ends by its guard. -/
theorem newDevicesLoop_fuel (rName : GoString) (num : Int) (extra : Nat) :
    newDevicesLoop rName num (num.toNat + extra) 0 [] =
      newDevicesLoop rName num num.toNat 0 [] := by
  rw [newDevicesLoop_eq, newDevicesLoop_eq]
  simp

/-- C8: for every resource name and count `N ≥ 0`, `NewFakeDevicePlugin` builds
exactly `N` devices, and for every `i < N` the i-th device has the identity
`<name>-<i>`, `i` written in decimal from 0, and health Healthy (beyond `N` there
is no device). -/
theorem newFakeDevicePlugin_devs (rName : GoString) (N : Nat) :
    (NewFakeDevicePlugin rName (N : Int)).devs.length = N ∧
      ∀ i : Nat, (NewFakeDevicePlugin rName (N : Int)).devs[i]? =
        if i < N then
          some { ID := rName ++ "-".toList ++ (toString i).toList, Health := "Healthy".toList }
        else none := by
  have hdevs : (NewFakeDevicePlugin rName (N : Int)).devs =
      (List.range N).map
        (fun j => ({ ID := rName ++ ['-'] ++ formatDecimal j, Health := Healthy } : Device)) := by
    simp [NewFakeDevicePlugin, newDevicesLoop_eq, List.range_eq_range']
  rw [hdevs]
  refine ⟨by simp, ?_⟩
  intro i
  by_cases h : i < N
  · rw [if_pos h, List.getElem?_map, List.getElem?_range h]
    rfl
  · rw [if_neg h]
    simp
    omega

/-- A non-positive count gives an empty registry. -/
theorem newFakeDevicePlugin_devs_of_nonpos (rName : GoString) (num : Int) (h : num ≤ 0) :
    (NewFakeDevicePlugin rName num).devs = [] := by
  have hz : num.toNat = 0 := by omega
  simp [NewFakeDevicePlugin, hz, newDevicesLoop]

/-- The registry of `acme.test/widget` with count 2. -/
theorem newFakeDevicePlugin_devs_example :
    (NewFakeDevicePlugin "acme.test/widget".toList 2).devs =
      [{ ID := "acme.test/widget-0".toList, Health := "Healthy".toList },
       { ID := "acme.test/widget-1".toList, Health := "Healthy".toList }] := by
  decide

/-! ## Theorems: `Allocate` -/

/-- The accumulation of `strings.Join` is the first element followed by the
others, each preceded by the separator. -/
theorem foldl_join_eq (sep : GoString) (rest : List GoString) :
    ∀ b : GoString,
      rest.foldl (fun b s => b ++ sep ++ s) b = b ++ (rest.map (fun s => sep ++ s)).flatten := by
  induction rest with
  | nil => intro b; simp
  | cons s rest ih =>
    intro b
    rw [List.foldl_cons, ih]
    simp

/-- Interspersing, seen from the second element on. -/
theorem intercalate_cons_eq (sep e : GoString) (rest : List GoString) :
    List.intercalate sep (e :: rest) = e ++ (rest.map (fun s => sep ++ s)).flatten := by
  induction rest generalizing e with
  | nil => simp [List.intercalate]
  | cons s rest ih =>
    have h := ih s
    simp only [List.intercalate, List.intersperse, List.flatten] at h ⊢
    simp [h]

/-- The Go function `strings.Join` puts the separator between consecutive
elements. -/
theorem stringsJoin_eq_intercalate (elems : List GoString) (sep : GoString) :
    stringsJoin elems sep = List.intercalate sep elems := by
  cases elems with
  | nil => simp [stringsJoin, List.intercalate]
  | cons e rest =>
    cases rest with
    | nil => simp [stringsJoin, List.intercalate]
    | cons s rest =>
      rw [intercalate_cons_eq]
      simp only [stringsJoin]
      rw [foldl_join_eq]

/-- The loop of `Allocate` appends one response per request, in order. -/
theorem allocateLoop_eq (reqs : List ContainerAllocateRequest) :
    ∀ acc : AllocateResponse,
      (allocateLoop acc reqs).ContainerResponses =
        acc.ContainerResponses ++ reqs.map (fun req =>
          ({ Envs := [("NVIDIA_VISIBLE_DEVICES".toList, stringsJoin req.DevicesIDs [','])] } :
            ContainerAllocateResponse)) := by
  induction reqs with
  | nil => intro acc; simp [allocateLoop]
  | cons req rest ih => intro acc; simp [allocateLoop, ih]

/-- C7: for every request with `K ≥ 0` container requests, `Allocate` returns no
error and exactly `K` container responses, and the i-th response (for every
`i < K`; beyond `K` there is none) carries the environment variable
`NVIDIA_VISIBLE_DEVICES`, and only it, with the i-th request's device identities
joined with `,` in their order as value, whatever the registry of the plugin
holds. -/
theorem allocate_responses (m : FakeDevicePlugin) (reqs : AllocateRequest) :
    (Allocate m reqs).2 = none ∧
      (Allocate m reqs).1.ContainerResponses.length = reqs.ContainerRequests.length ∧
      (∀ i : Nat, (Allocate m reqs).1.ContainerResponses[i]? =
        reqs.ContainerRequests[i]?.map (fun req =>
          { Envs := [("NVIDIA_VISIBLE_DEVICES".toList,
              List.intercalate ",".toList req.DevicesIDs)] })) ∧
      (∀ i : Nat, ((Allocate m reqs).1.ContainerResponses[i]?).map
          (fun resp => mapLookup resp.Envs "NVIDIA_VISIBLE_DEVICES".toList) =
        reqs.ContainerRequests[i]?.map (fun req =>
          some (List.intercalate ",".toList req.DevicesIDs))) := by
  have hall : (Allocate m reqs).1.ContainerResponses =
      reqs.ContainerRequests.map (fun req =>
        ({ Envs := [("NVIDIA_VISIBLE_DEVICES".toList,
            List.intercalate ",".toList req.DevicesIDs)] } : ContainerAllocateResponse)) := by
    simp only [Allocate, allocateLoop_eq, List.nil_append]
    apply List.map_congr_left
    intro req _
    rw [stringsJoin_eq_intercalate]
    rfl
  refine ⟨rfl, by simp [hall], ?_, ?_⟩
  · intro i
    rw [hall, List.getElem?_map]
  · intro i
    rw [hall, List.getElem?_map]
    cases reqs.ContainerRequests[i]? with
    | none => rfl
    | some req => simp [mapLookup]

/-- A request for two containers, the second asking for no device and the first
for identities that are in no registry. -/
theorem allocate_example :
    Allocate (NewFakeDevicePlugin "acme.test/widget".toList 2)
        { ContainerRequests := [{ DevicesIDs := ["x-1".toList, "y".toList] }, { DevicesIDs := [] }] } =
      ({ ContainerResponses :=
          [{ Envs := [("NVIDIA_VISIBLE_DEVICES".toList, "x-1,y".toList)] },
           { Envs := [("NVIDIA_VISIBLE_DEVICES".toList, "".toList)] }] }, none) := by
  decide

/-! ## Theorems: socket path and registration endpoint -/

/-- Copying a path element: without a separator in it, the rest of the path is
appended to the output as it is. -/
theorem cleanLoop_copy (rooted : Bool) (Y : GoString) :
    ∀ (out : GoString) (dotdot : Nat), '/' ∉ Y → cleanLoop rooted true out dotdot Y = out ++ Y := by
  induction Y with
  | nil => intro out dotdot _; simp [cleanLoop]
  | cons c Y ih =>
    intro out dotdot h
    have hc : c ≠ '/' := fun e => h (by simp [e])
    have hY : '/' ∉ Y := fun e => h (by simp [e])
    simp [cleanLoop, hc, ih _ _ hY]

/-- A real path element at the end of the path (not `.`, not `..`, no separator in
it) is appended to the output, after a separator when the output already holds an
element. -/
theorem cleanLoop_element (rooted : Bool) (out : GoString) (dotdot : Nat) (c : Char)
    (Y : GoString) (hc : c ≠ '/') (hY : '/' ∉ Y) (hdot : c = '.' → Y ≠ [] ∧ Y ≠ ['.']) :
    cleanLoop rooted false out dotdot (c :: Y) =
      (if (rooted && out.length != 1) || (!rooted && out.length != 0) then out ++ ['/']
        else out) ++ c :: Y := by
  cases Y with
  | nil =>
    have hnd : c ≠ '.' := fun e => (hdot e).1 rfl
    simp only [cleanLoop, hc, hnd, if_false]
    split <;> simp
  | cons c2 rest =>
    have hc2 : c2 ≠ '/' := fun e => hY (by simp [e])
    have hrest : '/' ∉ rest := fun e => hY (by simp [e])
    have h3 : ¬ (c = '.' ∧ c2 = '.' ∧ elementEnds rest = true) := by
      rintro ⟨e1, e2, e3⟩
      cases rest with
      | nil => exact (hdot e1).2 (by simp [e2])
      | cons c3 rest3 =>
        simp [elementEnds] at e3
        exact hrest (by simp [e3])
    have h2 : ¬ (c = '.' ∧ c2 = '/') := fun e => hc2 e.2
    rw [cleanLoop]
    simp only [hc, h2, h3, if_false]
    rw [cleanLoop_copy rooted (c2 :: rest) _ _ hY]
    simp

/-- The loop of `filepath.Clean` over the device-plugin directory followed by the
separator that `filepath.Join` adds. -/
theorem cleanLoop_devicePluginPath (c : Char) (Y : GoString) :
    cleanLoop true false ['/'] 1 ("var/lib/kubelet/device-plugins//".toList ++ c :: Y) =
      cleanLoop true false "/var/lib/kubelet/device-plugins".toList 1 (c :: Y) := by
  rfl

/-- The base of a path whose last element is not empty is that element. -/
theorem pathBase_last (P L : GoString) (hL : L ≠ []) (hs : '/' ∉ L) :
    pathBase (P ++ '/' :: L) = L := by
  have hrev : (P ++ '/' :: L).reverse = L.reverse ++ '/' :: P.reverse := by simp
  have hne : L.reverse ≠ [] := by simpa using hL
  obtain ⟨a, t, hat⟩ := List.exists_cons_of_ne_nil hne
  have ha : a ≠ '/' := by
    intro e
    apply hs
    have : a ∈ L.reverse := by rw [hat]; simp
    rw [← e]
    simpa using this
  have hdrop : ((P ++ '/' :: L).reverse.dropWhile (fun c => c == '/')) = (P ++ '/' :: L).reverse := by
    rw [hrev, hat, List.cons_append]
    exact List.dropWhile_cons_of_neg (by simpa using ha)
  have htake : ((P ++ '/' :: L).reverse.takeWhile (fun c => c != '/')) = L.reverse := by
    rw [hrev, List.takeWhile_append_of_pos]
    · simp
    · intro b hb
      have hb' : b ∈ L := by simpa using hb
      have : b ≠ '/' := fun e => hs (e ▸ hb')
      simpa using this
  unfold pathBase
  have hp : P ++ '/' :: L ≠ [] := by simp
  simp only [hp, if_false, hdrop, List.reverse_reverse, htake]
  simp [hL]

/-- The file name of the socket holds no separator. -/
theorem replaced_no_slash (rName : GoString) :
    '/' ∉ rName.map (fun c => if c = '/' then '-' else c) ++ "-fake.sock".toList := by
  intro h
  rcases List.mem_append.1 h with h1 | h2
  · obtain ⟨c, _, hc⟩ := List.mem_map.1 h1
    by_cases e : c = '/'
    · simp [e] at hc
    · simp [e] at hc
  · revert h2
    decide

/-- The Go function `filepath.Clean` on a rooted path. -/
theorem clean_rooted (rest : GoString) :
    Clean ('/' :: rest) =
      if cleanLoop true false ['/'] 1 rest = [] then ['.']
      else cleanLoop true false ['/'] 1 rest := by
  simp [Clean]

/-- The Go function `filepath.Join` on two elements, the first not empty. -/
theorem filepathJoin_pair (a b : GoString) (ha : a ≠ []) :
    filepathJoin [a, b] = Clean (a ++ '/' :: b) := by
  simp [filepathJoin, stringsJoin, ha]

/-- The device-plugin directory is a rooted path. -/
theorem devicePluginPath_eq :
    DevicePluginPath = '/' :: "var/lib/kubelet/device-plugins/".toList := by
  decide

/-- The socket path is the cleaned join of the directory and the file name. -/
theorem socket_eq_clean (r : GoString) (num : Int) :
    (NewFakeDevicePlugin r num).socket =
      Clean ('/' :: ("var/lib/kubelet/device-plugins//".toList ++
        (r.map (fun c => if c = '/' then '-' else c) ++ "-fake.sock".toList))) := by
  have h : (NewFakeDevicePlugin r num).socket =
      filepathJoin [DevicePluginPath, replaceAll r '/' '-' ++ "-fake.sock".toList] := rfl
  rw [h, filepathJoin_pair _ _ (by decide), devicePluginPath_eq]
  simp [replaceAll]

/-- C10: for every resource name, the socket path computed by `NewFakeDevicePlugin`
is the device-plugin directory `/var/lib/kubelet/device-plugins`, a single `/`,
and the resource name with every `/` replaced by `-` followed by `-fake.sock`;
that last component holds no `/` and is the endpoint `Register` sends (the
basename of the socket path); and the resource name `acme.test/widget` gives a
socket path ending in `acme.test-widget-fake.sock`. -/
theorem socket_path_and_endpoint (rName : GoString) (num : Int) (resourceName : GoString)
    (callOk : Bool) :
    (NewFakeDevicePlugin rName num).socket =
        "/var/lib/kubelet/device-plugins".toList ++ ['/'] ++
          (rName.map (fun c => if c = '/' then '-' else c) ++ "-fake.sock".toList) ∧
      '/' ∉ rName.map (fun c => if c = '/' then '-' else c) ++ "-fake.sock".toList ∧
      pathBase (NewFakeDevicePlugin rName num).socket =
        rName.map (fun c => if c = '/' then '-' else c) ++ "-fake.sock".toList ∧
      ((Register (NewFakeDevicePlugin rName num) resourceName true callOk).1).map
          (fun req => req.Endpoint) =
        some (rName.map (fun c => if c = '/' then '-' else c) ++ "-fake.sock".toList) ∧
      "acme.test-widget-fake.sock".toList <:+
        (NewFakeDevicePlugin "acme.test/widget".toList num).socket := by
  have hno := replaced_no_slash rName
  have hsock : ∀ r : GoString, (NewFakeDevicePlugin r num).socket =
      "/var/lib/kubelet/device-plugins".toList ++ ['/'] ++
        (r.map (fun c => if c = '/' then '-' else c) ++ "-fake.sock".toList) := by
    intro r
    have hno := replaced_no_slash r
    have hlen : 10 ≤ (r.map (fun c => if c = '/' then '-' else c) ++
        "-fake.sock".toList).length := by simp
    rw [socket_eq_clean]
    generalize r.map (fun c => if c = '/' then '-' else c) ++ "-fake.sock".toList = L
      at hno hlen
    obtain ⟨c, Y, rfl⟩ : ∃ c Y, L = c :: Y := by
      cases L with
      | nil => simp at hlen
      | cons c Y => exact ⟨c, Y, rfl⟩
    have hc : c ≠ '/' := fun e => hno (by simp [e])
    have hY : '/' ∉ Y := fun e => hno (by simp [e])
    have hdot : c = '.' → Y ≠ [] ∧ Y ≠ ['.'] := by
      intro _
      constructor <;> intro e <;> simp [e] at hlen
    rw [clean_rooted, cleanLoop_devicePluginPath, cleanLoop_element true _ 1 c Y hc hY hdot]
    simp
  have hbase : pathBase (NewFakeDevicePlugin rName num).socket =
      rName.map (fun c => if c = '/' then '-' else c) ++ "-fake.sock".toList := by
    rw [hsock rName]
    have hne : rName.map (fun c => if c = '/' then '-' else c) ++ "-fake.sock".toList ≠ [] := by
      simp
    simpa using pathBase_last "/var/lib/kubelet/device-plugins".toList _ hne hno
  refine ⟨hsock rName, hno, hbase, ?_, ?_⟩
  · cases callOk <;> simp [Register, registerRequest, hbase]
  · rw [hsock]
    exact ⟨"/var/lib/kubelet/device-plugins/".toList, by decide⟩

/-! ## Theorems: `ListAndWatch` -/

/-- Marking a device keeps the number of devices. -/
theorem markUnhealthy_length (devs : List Device) : ∀ d : Nat,
    (markUnhealthy devs d).length = devs.length := by
  induction devs with
  | nil => intro d; simp [markUnhealthy]
  | cons dev rest ih =>
    intro d
    cases d with
    | zero => simp [markUnhealthy]
    | succ d => simp [markUnhealthy, ih]

/-- Marking a device keeps the identities. -/
theorem markUnhealthy_ids (devs : List Device) : ∀ d : Nat,
    (markUnhealthy devs d).map (fun dev => dev.ID) = devs.map (fun dev => dev.ID) := by
  induction devs with
  | nil => intro d; simp [markUnhealthy]
  | cons dev rest ih =>
    intro d
    cases d with
    | zero => simp [markUnhealthy]
    | succ d => simp [markUnhealthy, ih]

/-- The marked device of the registry is Unhealthy. -/
theorem markUnhealthy_at (devs : List Device) : ∀ d : Nat, d < devs.length →
    ((markUnhealthy devs d)[d]?).map (fun dev => dev.Health) = some Unhealthy := by
  induction devs with
  | nil => intro d h; simp at h
  | cons dev rest ih =>
    intro d h
    cases d with
    | zero => simp [markUnhealthy]
    | succ d =>
      have h' : d < rest.length := by simpa using h
      simpa [markUnhealthy] using ih d h'

/-- Marking a device leaves every other device as it was. -/
theorem markUnhealthy_other (devs : List Device) : ∀ d j : Nat, j ≠ d →
    (markUnhealthy devs d)[j]? = devs[j]? := by
  induction devs with
  | nil => intro d j _; simp [markUnhealthy]
  | cons dev rest ih =>
    intro d j hj
    cases d with
    | zero =>
      cases j with
      | zero => exact absurd rfl hj
      | succ j => simp [markUnhealthy]
    | succ d =>
      cases j with
      | zero => simp [markUnhealthy]
      | succ j =>
        have hj' : j ≠ d := fun e => hj (by rw [e])
        simpa [markUnhealthy] using ih d j hj'

/-- Health events followed by the shutdown signal: the loop returns no error, having
sent the registry after each event. -/
theorem watchLoop_health_then_stop (ds : List Nat) :
    ∀ (devs : List Device) (sent : List (List Device)),
      (watchLoop devs sent (ds.map WatchEvent.health ++ [WatchEvent.stop])).returned =
          some none ∧
        (watchLoop devs sent (ds.map WatchEvent.health ++ [WatchEvent.stop])).sent =
          sent ++ registryAfter devs ds := by
  induction ds with
  | nil => intro devs sent; simp [watchLoop, registryAfter]
  | cons d ds ih =>
    intro devs sent
    have h := ih (markUnhealthy devs d) (sent ++ [markUnhealthy devs d])
    simp only [List.map_cons, List.cons_append, watchLoop, registryAfter]
    exact ⟨h.1, h.2.trans (by simp)⟩

/-- Health events alone: the loop is still blocked, having sent the registry after
each event. -/
theorem watchLoop_health_blocked (ds : List Nat) :
    ∀ (devs : List Device) (sent : List (List Device)),
      (watchLoop devs sent (ds.map WatchEvent.health)).returned = none ∧
      (watchLoop devs sent (ds.map WatchEvent.health)).sent = sent ++ registryAfter devs ds := by
  induction ds with
  | nil => intro devs sent; simp [watchLoop, registryAfter]
  | cons d ds ih =>
    intro devs sent
    have h := ih (markUnhealthy devs d) (sent ++ [markUnhealthy devs d])
    simp only [List.map_cons, watchLoop, registryAfter]
    exact ⟨h.1, h.2.trans (by simp)⟩

/-- One registry state per health event. -/
theorem registryAfter_length (ds : List Nat) : ∀ devs : List Device,
    (registryAfter devs ds).length = ds.length := by
  induction ds with
  | nil => intro devs; simp [registryAfter]
  | cons d ds ih => intro devs; simp [registryAfter, ih]

/-- Every registry state has the identities of the first. -/
theorem registryAfter_ids (ds : List Nat) : ∀ (devs : List Device),
    ∀ e ∈ devs :: registryAfter devs ds,
      e.map (fun dev => dev.ID) = devs.map (fun dev => dev.ID) := by
  induction ds with
  | nil => intro devs e he; simp [registryAfter] at he; rw [he]
  | cons d ds ih =>
    intro devs e he
    simp only [registryAfter, List.mem_cons] at he
    rcases he with he | he
    · rw [he]
    · have := ih (markUnhealthy devs d) e (by simpa using he)
      rw [this, markUnhealthy_ids]

/-- Consecutive registry states differ by the health of the referenced device only. -/
theorem registryAfter_step (ds : List Nat) : ∀ (devs : List Device),
    (∀ d ∈ ds, d < devs.length) →
    ∀ (k d : Nat), ds[k]? = some d →
      ∃ prev next : List Device,
        (devs :: registryAfter devs ds)[k]? = some prev ∧
        (devs :: registryAfter devs ds)[k + 1]? = some next ∧
        (next[d]?).map (fun dev => dev.Health) = some Unhealthy ∧
        ∀ j : Nat, j ≠ d → next[j]? = prev[j]? := by
  induction ds with
  | nil => intro devs _ k d hk; simp at hk
  | cons d0 ds ih =>
    intro devs hreg k d hk
    cases k with
    | zero =>
      simp at hk
      subst hk
      refine ⟨devs, markUnhealthy devs d0, by simp, by simp [registryAfter], ?_, ?_⟩
      · exact markUnhealthy_at devs d0 (hreg d0 (by simp))
      · intro j hj
        exact markUnhealthy_other devs d0 j hj
    | succ k =>
      have hk' : ds[k]? = some d := by simpa using hk
      have hreg' : ∀ d ∈ ds, d < (markUnhealthy devs d0).length := by
        intro d hd
        rw [markUnhealthy_length]
        exact hreg d (by simp [hd])
      obtain ⟨prev, next, h1, h2, h3, h4⟩ := ih (markUnhealthy devs d0) hreg' k d hk'
      exact ⟨prev, next, by simpa [registryAfter] using h1, by simpa [registryAfter] using h2, h3, h4⟩


/-! ## Theorems: `Stop` and the lifecycle loop -/

/-- Without a server handle `Stop` returns success and changes nothing. -/
theorem stop_of_no_server (m : FakeDevicePlugin) (rm : RemoveResult) (h : m.server = none) :
    Stop m rm = some (m, none) := by
  simp [Stop, h]

/-- With a server handle and an open signal `Stop` clears the handle, closes the
signal and returns what `cleanup` returns. -/
theorem stop_of_server (m : FakeDevicePlugin) (rm : RemoveResult) (hs : m.server.isSome = true)
    (ho : m.stop.closed = false) :
    Stop m rm = some ({ m with server := none, stop := { closed := true } }, cleanup rm) := by
  obtain ⟨g, hg⟩ := Option.isSome_iff_exists.1 hs
  simp [Stop, hg, Chan.close, ho]

/-- When a server handle implies an open signal, `Stop` does not panic and leaves
no server handle. -/
theorem stop_total (m : FakeDevicePlugin) (rm : RemoveResult)
    (h : m.server.isSome = true → m.stop.closed = false) :
    ∃ m1 err, Stop m rm = some (m1, err) ∧ m1.server = none ∧
      (m1.server.isSome = true → m1.stop.closed = false) := by
  cases hs : m.server with
  | none => exact ⟨m, none, stop_of_no_server m rm hs, hs, by simp [hs]⟩
  | some g =>
    have hs' : m.server.isSome = true := by simp [hs]
    exact ⟨_, _, stop_of_server m rm hs' (h hs'), rfl, by simp⟩

/-- The method `Start` changes the server handle only. -/
theorem start_stop_chan (m : FakeDevicePlugin) (rm : RemoveResult) (l d : Bool) :
    (Start m rm l d).1.stop = m.stop ∧ (Start m rm l d).1.name = m.name ∧
      (Start m rm l d).1.devs = m.devs ∧ (Start m rm l d).1.socket = m.socket := by
  unfold Start
  cases rm <;> cases l <;> cases d <;> simp [cleanup]

/-- On an instance with an open signal `Serve` does not panic, and a server handle
left by it comes with an open signal. -/
theorem serve_total (m : FakeDevicePlugin) (env : ServeEnv) (ho : m.stop.closed = false) :
    ∃ m1 err, Serve m env = some (m1, err) ∧
      (m1.server.isSome = true → m1.stop.closed = false) := by
  unfold Serve
  have hst := (start_stop_chan m env.startRemove env.listenOk env.startDialOk).1
  rcases hS : Start m env.startRemove env.listenOk env.startDialOk with ⟨m1, e1⟩
  rw [hS] at hst
  simp only at hst
  cases e1 with
  | some err => exact ⟨m1, some err, rfl, fun _ => by rw [hst, ho]⟩
  | none =>
    simp only
    cases hR : (Register m1 m1.name env.registerDialOk env.registerCallOk).2 with
    | none => exact ⟨m1, none, rfl, fun _ => by rw [hst, ho]⟩
    | some err =>
      obtain ⟨m2, e2, h2, _, h4⟩ := stop_total m1 env.stopRemove (fun _ => by rw [hst, ho])
      simp only [h2]
      exact ⟨m2, some err, rfl, h4⟩

/-- A new instance has no server handle and an open signal. -/
theorem newFakeDevicePlugin_fresh (rName : GoString) (num : Int) :
    (NewFakeDevicePlugin rName num).server = none ∧
      (NewFakeDevicePlugin rName num).stop.closed = false := ⟨rfl, rfl⟩

/-- The invariant holds when `main` enters its loop. -/
theorem mainInv_init (flags : Flags) : MainInv flags MainState.init := by
  simp [MainInv, MainState.init]

/-- Every step of `main` keeps the invariant. -/
theorem mainInv_step (flags : Flags) (s : MainState) (env : StepEnv) (h : MainInv flags s) :
    MainInv flags (step flags s env) := by
  rcases s with ⟨pc, restart, dp, retired⟩
  obtain ⟨h1, h2, h3, h4, h5, h6, h7, h8⟩ := h
  simp only at h1 h2 h3 h4 h5 h6 h7 h8
  cases pc with
  | loopTop =>
    cases restart with
    | false =>
      have hdp : dp ≠ none := fun e => by simpa using h4 rfl e
      simp [step, MainInv, hdp]
      exact ⟨h2, h3⟩
    | true =>
      cases dp with
      | none => simp [step, MainInv]; exact h2
      | some m =>
        obtain ⟨m1, err, hS, hn, ho⟩ := stop_total m env.stopRemove (h3 m rfl)
        simp [step, MainInv, hS, hn]
        exact h2
  | construct =>
    simp [step, MainInv, newFakeDevicePlugin_fresh]
    refine ⟨?_, (h5 rfl).1⟩
    intro m hm
    rcases hm with hm | hm
    · cases dp with
      | none => simp at hm
      | some m0 =>
        simp at hm
        subst hm
        exact (h5 rfl).2 _ rfl
    · exact h2 m hm
  | serve =>
    obtain ⟨hr, hdp⟩ := h6 rfl
    subst hdp
    obtain ⟨m1, err, hS, ho⟩ := serve_total
      (NewFakeDevicePlugin flags.resourceName flags.resourceNum) env.serve rfl
    cases err with
    | none => simp [step, MainInv, hS]; exact ⟨h2, by simpa using ho⟩
    | some e => simp [step, MainInv, hS]; exact ⟨h2, by simpa using ho⟩
  | select =>
    have hdp : dp ≠ none := h7 rfl
    obtain ⟨m, rfl⟩ := Option.ne_none_iff_exists'.1 hdp
    obtain ⟨m1, err, hS, hn, ho⟩ := stop_total m env.stopRemove (h3 m rfl)
    rcases env with ⟨rm, se, ev⟩
    simp only at hS
    cases ev with
    | fs event =>
      by_cases hc : event.Name = KubeletSocket ∧ event.Op &&& fsnotifyCreate = fsnotifyCreate
      · simp [step, handleEvent, MainInv, hc]
        exact ⟨h2, by simpa using h3⟩
      · simp only [step, handleEvent, hc, if_false]
        simp [MainInv]
        exact ⟨h2, by simpa using h3⟩
    | watcherError =>
      simp [step, handleEvent, MainInv]
      exact ⟨h2, by simpa using h3⟩
    | sig sg =>
      cases sg <;> simp [step, handleEvent, MainInv, hS, hn]
      all_goals first | exact h2 | exact ⟨h2, by simpa using h3⟩
  | exited => simpa [step, MainInv] using ⟨h2, h3, h8 rfl⟩
  | panicked => exact absurd rfl h1


/-- Every run of `main` keeps the invariant. -/
theorem mainInv_run (flags : Flags) (envs : List StepEnv) :
    ∀ s : MainState, MainInv flags s → MainInv flags (run flags s envs) := by
  induction envs with
  | nil => intro s h; exact h
  | cons env envs ih =>
    intro s h
    exact ih (step flags s env) (mainInv_step flags s env h)

/-- Running over two lists of answers in a row. -/
theorem run_append (flags : Flags) (s : MainState) (envs more : List StepEnv) :
    run flags s (envs ++ more) = run flags (run flags s envs) more := by
  simp [run, List.foldl_append]

/-- Once the loop has ended nothing changes. -/
theorem run_exited (flags : Flags) (more : List StepEnv) :
    ∀ s : MainState, s.pc = PC.exited → run flags s more = s := by
  induction more with
  | nil => intro s _; rfl
  | cons env more ih =>
    intro s h
    have hs : step flags s env = s := by simp [step, h]
    simp only [run, List.foldl_cons, hs]
    exact ih s h

/-- The current instance of `main` never holds a server handle together with a
closed shutdown signal, so its `Stop` never closes the signal twice. -/
theorem reachable_signal_open (flags : Flags) (envs : List StepEnv) (m : FakeDevicePlugin)
    (hm : (run flags MainState.init envs).devicePlugin = some m)
    (hs : m.server.isSome = true) : m.stop.closed = false :=
  (mainInv_run flags envs _ (mainInv_init flags)).2.2.1 m hm hs

/-- On an instance that holds a server handle with its shutdown signal open, the
first of a row of `Stop` calls clears the handle and closes the signal, the later
ones change nothing, and exactly one call executes the close; on an instance
without a handle no call does. -/
theorem stop_row (m m0 : FakeDevicePlugin) (rm : RemoveResult) (rms : List RemoveResult)
    (hs : m.server.isSome = true) (ho : m.stop.closed = false) (h0 : m0.server = none) :
    (∃ m1 : FakeDevicePlugin,
      Stop m rm = some (m1, cleanup rm) ∧
      m1 = { m with server := none, stop := { closed := true } } ∧
      (∀ rm1 : RemoveResult, Stop m1 rm1 = some (m1, none)) ∧
      stopMany m (rm :: rms) = some (m1, cleanup rm :: rms.map (fun _ => none)) ∧
      closeCalls m (rm :: rms) = 1) ∧
    Stop m0 rm = some (m0, none) ∧ closeCalls m0 (rm :: rms) = 0 := by
  have hmany : ∀ (p : FakeDevicePlugin) (l : List RemoveResult), p.server = none →
      stopMany p l = some (p, l.map (fun _ => none)) ∧ closeCalls p l = 0 := by
    intro p l hp
    induction l with
    | nil => simp [stopMany, closeCalls]
    | cons r l ih =>
      simp [stopMany, closeCalls, stop_of_no_server p r hp, ih.1, ih.2, hp]
  have hS := stop_of_server m rm hs ho
  refine ⟨⟨_, hS, rfl, fun rm1 => stop_of_no_server _ rm1 rfl, ?_, ?_⟩,
    stop_of_no_server m0 rm h0, (hmany m0 (rm :: rms) h0).2⟩
  · simp [stopMany, hS, (hmany { m with server := none, stop := { closed := true } } rms rfl).1]
  · simp [closeCalls, hS, hs,
      (hmany { m with server := none, stop := { closed := true } } rms rfl).2]

/-- C4: for every Plugin Instance `m` of the program (the instance `main` holds at
some point of a run) that has a running-server handle, and every sequence
`rm :: rms` of one or more `Stop` calls: the first call clears the handle and
closes the shutdown signal; every later call sees no server, returns success and
changes nothing; no call panics, so the signal is never closed twice, and exactly
one call executes the close.  For an instance `m0` without a server handle, `Stop`
returns success and changes nothing, and no call executes the close. -/
theorem stop_closes_once (flags : Flags) (envs : List StepEnv) (m m0 : FakeDevicePlugin)
    (rm : RemoveResult) (rms : List RemoveResult)
    (hm : (run flags MainState.init envs).devicePlugin = some m)
    (hs : m.server.isSome = true) (h0 : m0.server = none) :
    (∃ m1 : FakeDevicePlugin,
      Stop m rm = some (m1, cleanup rm) ∧
      m1 = { m with server := none, stop := { closed := true } } ∧
      (∀ rm1 : RemoveResult, Stop m1 rm1 = some (m1, none)) ∧
      stopMany m (rm :: rms) = some (m1, cleanup rm :: rms.map (fun _ => none)) ∧
      closeCalls m (rm :: rms) = 1) ∧
    Stop m0 rm = some (m0, none) ∧ closeCalls m0 (rm :: rms) = 0 :=
  stop_row m m0 rm rms hs (reachable_signal_open flags envs m hm hs) h0

/-- C5: in every run of the loop of `main`, whatever `Start`, `Register` and the
file system answer and whatever events arrive: the loop does not panic; at the
moment a new instance is constructed the previous instance (if any) has no
running-server handle; no retired instance has one, so at most one instance ever
created holds a running server; and when the loop has ended on a signal the
current instance has none. -/
theorem stop_before_create (flags : Flags) (envs : List StepEnv) :
    (run flags MainState.init envs).pc ≠ PC.panicked ∧
    ((run flags MainState.init envs).pc = PC.construct →
      ∀ m, (run flags MainState.init envs).devicePlugin = some m → m.server = none) ∧
    (∀ m ∈ (run flags MainState.init envs).retired, m.server = none) ∧
    ((run flags MainState.init envs).instances.filter FakeDevicePlugin.hasServer).length ≤ 1 ∧
    ((run flags MainState.init envs).pc = PC.exited →
      ∃ m, (run flags MainState.init envs).devicePlugin = some m ∧ m.server = none) := by
  obtain ⟨h1, h2, _, _, h5, _, _, h8⟩ := mainInv_run flags envs _ (mainInv_init flags)
  refine ⟨h1, fun h => (h5 h).2, h2, ?_, h8⟩
  have hret : (run flags MainState.init envs).retired.filter FakeDevicePlugin.hasServer = [] := by
    rw [List.filter_eq_nil_iff]
    intro m hm
    simp [FakeDevicePlugin.hasServer, h2 m hm]
  rw [MainState.instances, List.filter_append, hret, List.append_nil]
  calc _ ≤ (run flags MainState.init envs).devicePlugin.toList.length := List.length_filter_le _ _
    _ ≤ 1 := by cases (run flags MainState.init envs).devicePlugin <;> simp

/-- C6: in every state in which the loop of `main` waits in its `select`, handling
one event gives: a filesystem event whose name is the node agent's socket path and
whose operation includes Create sets `restart` and changes nothing else; any other
filesystem event and any watcher error change neither `restart` nor the instance;
signal HUP sets `restart` and changes nothing else; any other signal stops the
current instance (it holds no server afterwards) and ends the loop for good,
without constructing an instance. -/
theorem select_transitions (flags : Flags) (envs : List StepEnv) (env : StepEnv)
    (hsel : (run flags MainState.init envs).pc = PC.select) :
    (∀ e : FsEvent, env.event = Event.fs e → e.Name = KubeletSocket → e.Op.testBit 0 = true →
      step flags (run flags MainState.init envs) env =
        { run flags MainState.init envs with pc := PC.loopTop, restart := true }) ∧
    (∀ e : FsEvent, env.event = Event.fs e → ¬ (e.Name = KubeletSocket ∧ e.Op.testBit 0 = true) →
      step flags (run flags MainState.init envs) env =
        { run flags MainState.init envs with pc := PC.loopTop }) ∧
    (env.event = Event.watcherError →
      step flags (run flags MainState.init envs) env =
        { run flags MainState.init envs with pc := PC.loopTop }) ∧
    (env.event = Event.sig Signal.SIGHUP →
      step flags (run flags MainState.init envs) env =
        { run flags MainState.init envs with pc := PC.loopTop, restart := true }) ∧
    (∀ sg : Signal, env.event = Event.sig sg → sg ≠ Signal.SIGHUP →
      ∃ (m m1 : FakeDevicePlugin) (err : Option Err),
        (run flags MainState.init envs).devicePlugin = some m ∧
        Stop m env.stopRemove = some (m1, err) ∧ m1.server = none ∧
        step flags (run flags MainState.init envs) env =
          { run flags MainState.init envs with pc := PC.exited, devicePlugin := some m1 } ∧
        ∀ more : List StepEnv,
          run flags (step flags (run flags MainState.init envs) env) more =
            step flags (run flags MainState.init envs) env) := by
  obtain ⟨_, _, h3, _, _, _, h7, _⟩ := mainInv_run flags envs _ (mainInv_init flags)
  generalize run flags MainState.init envs = s at hsel h3 h7
  have hbit : ∀ n : Nat, (n &&& fsnotifyCreate = fsnotifyCreate) ↔ n.testBit 0 = true := by
    intro n
    simp [fsnotifyCreate, Nat.and_one_is_mod, Nat.testBit_zero]
  refine ⟨?_, ?_, ?_, ?_, ?_⟩
  · intro e he hn hb
    simp [step, hsel, handleEvent, he, hn, (hbit e.Op).2 hb]
  · intro e he hne
    have : ¬ (e.Name = KubeletSocket ∧ e.Op &&& fsnotifyCreate = fsnotifyCreate) :=
      fun h => hne ⟨h.1, (hbit e.Op).1 h.2⟩
    simp only [step, hsel, handleEvent, he, this, if_false]
  · intro he
    simp [step, hsel, handleEvent, he]
  · intro he
    simp [step, hsel, handleEvent, he]
  · intro sg he hsg
    obtain ⟨m, hm⟩ := Option.ne_none_iff_exists'.1 (h7 hsel)
    obtain ⟨m1, err, hS, hn, _⟩ := stop_total m env.stopRemove (h3 m hm)
    have hstep : step flags s env = { s with pc := PC.exited, devicePlugin := some m1 } := by
      cases sg
      · exact absurd rfl hsg
      all_goals simp [step, hsel, handleEvent, he, hm, hS]
    refine ⟨m, m1, err, hm, hS, hn, hstep, ?_⟩
    intro more
    rw [hstep]
    exact run_exited flags more _ rfl


/-- A failed `Serve` leaves `restart` as it is and moves the loop to its `select`. -/
theorem step_select_of_fail (flags : Flags) (s : MainState) (env : StepEnv)
    (hI : MainInv flags s) (hpc : s.pc = PC.serve)
    (hfail : ∀ m1 : FakeDevicePlugin,
      Serve (NewFakeDevicePlugin flags.resourceName flags.resourceNum) env.serve ≠ some (m1, none)) :
    ∃ m1 : FakeDevicePlugin, step flags s env = { s with pc := PC.select, devicePlugin := some m1 } ∧
      s.restart = true := by
  obtain ⟨hr, hdp⟩ := hI.2.2.2.2.2.1 hpc
  obtain ⟨m1, err, hS, _⟩ := serve_total
    (NewFakeDevicePlugin flags.resourceName flags.resourceNum) env.serve rfl
  cases err with
  | none => exact absurd hS (hfail m1)
  | some e => exact ⟨m1, by simp [step, hpc, hdp, hS], hr⟩

/-- At the top of the loop with `restart` set, the previous instance is stopped and
the loop moves on to construct a new one. -/
theorem step_loopTop_restart (flags : Flags) (s : MainState) (env : StepEnv)
    (hI : MainInv flags s) (hpc : s.pc = PC.loopTop) (hr : s.restart = true) :
    (step flags s env).pc = PC.construct ∧ (step flags s env).retired = s.retired ∧
      (step flags s env).devicePlugin.toList.length = s.devicePlugin.toList.length := by
  cases hdp : s.devicePlugin with
  | none => simp [step, hpc, hr, hdp]
  | some m =>
    obtain ⟨m1, err, hS, _, _⟩ := stop_total m env.stopRemove (hI.2.2.1 m hdp)
    simp [step, hpc, hr, hdp, hS]

/-- The construction step retires the previous instance and installs a new one. -/
theorem step_construct (flags : Flags) (s : MainState) (env : StepEnv)
    (hpc : s.pc = PC.construct) :
    step flags s env =
      { s with
        pc := PC.serve
        devicePlugin := some (NewFakeDevicePlugin flags.resourceName flags.resourceNum)
        retired := s.devicePlugin.toList ++ s.retired } := by
  simp [step, hpc]

/-- C3 (amended): whenever bring-up of a new instance fails, `restart` stays true
and the loop goes to its `select` without constructing another instance.  When the
event it receives there is not a terminating signal, the loop returns to its top
with `restart` true and makes the next bring-up attempt at once: it stops the
failed instance, constructs a new one and calls `Serve` on it.  When the event is
a terminating signal the loop ends with no further attempt. -/
theorem failed_bring_up_waits_for_event (flags : Flags) (envs : List StepEnv)
    (env ev e3 e4 : StepEnv)
    (hpc : (run flags MainState.init envs).pc = PC.serve)
    (hfail : ∀ m1 : FakeDevicePlugin,
      Serve (NewFakeDevicePlugin flags.resourceName flags.resourceNum) env.serve ≠ some (m1, none)) :
    (run flags MainState.init (envs ++ [env])).restart = true ∧
    (run flags MainState.init (envs ++ [env])).pc = PC.select ∧
    (run flags MainState.init (envs ++ [env])).instances.length =
      (run flags MainState.init envs).instances.length ∧
    ((∀ sg : Signal, ev.event = Event.sig sg → sg = Signal.SIGHUP) →
      (run flags MainState.init (envs ++ [env, ev])).pc = PC.loopTop ∧
      (run flags MainState.init (envs ++ [env, ev])).restart = true ∧
      (run flags MainState.init (envs ++ [env, ev, e3])).pc = PC.construct ∧
      (run flags MainState.init (envs ++ [env, ev, e3, e4])).pc = PC.serve ∧
      (run flags MainState.init (envs ++ [env, ev, e3, e4])).devicePlugin =
        some (NewFakeDevicePlugin flags.resourceName flags.resourceNum) ∧
      (run flags MainState.init (envs ++ [env, ev, e3, e4])).instances.length =
        (run flags MainState.init envs).instances.length + 1) ∧
    ((∃ sg : Signal, ev.event = Event.sig sg ∧ sg ≠ Signal.SIGHUP) →
      (run flags MainState.init (envs ++ [env, ev])).pc = PC.exited ∧
      (run flags MainState.init (envs ++ [env, ev])).instances.length =
        (run flags MainState.init envs).instances.length) := by
  have hI := mainInv_run flags envs _ (mainInv_init flags)
  simp only [run_append]
  generalize run flags MainState.init envs = s at hpc hI
  obtain ⟨m1, h1, hr⟩ := step_select_of_fail flags s env hI hpc hfail
  have hI1 := mainInv_step flags s env hI
  have hdp := (hI.2.2.2.2.2.1 hpc).2
  have hrun1 : run flags s [env] = step flags s env := rfl
  have hrun2 : run flags s [env, ev] = step flags (step flags s env) ev := rfl
  have hrun3 : run flags s [env, ev, e3] = step flags (step flags (step flags s env) ev) e3 := rfl
  have hrun4 : run flags s [env, ev, e3, e4] =
      step flags (step flags (step flags (step flags s env) ev) e3) e4 := rfl
  rw [hrun1, hrun2, hrun3, hrun4]
  have hI2 := mainInv_step flags _ ev hI1
  refine ⟨by rw [h1]; exact hr, by rw [h1], by rw [h1]; simp [MainState.instances, hdp], ?_, ?_⟩
  · intro hev
    have h2 : step flags (step flags s env) ev =
        { s with pc := PC.loopTop, devicePlugin := some m1, restart := true } := by
      rw [h1]
      rcases ev with ⟨rm, se, event⟩
      cases event with
      | fs e =>
        by_cases hc : e.Name = KubeletSocket ∧ e.Op &&& fsnotifyCreate = fsnotifyCreate
        · simp [step, handleEvent, hc]
        · simp only [step, handleEvent, hc, if_false]
          simp [hr]
      | watcherError => simp [step, handleEvent, hr]
      | sig sg =>
        have := hev sg rfl
        subst this
        simp [step, handleEvent]
    have h3 := step_loopTop_restart flags _ e3 hI2 (by rw [h2]) (by rw [h2])
    have h4 := step_construct flags _ e4 h3.1
    refine ⟨by rw [h2], by rw [h2], h3.1, by rw [h4], by rw [h4], ?_⟩
    rw [h4]
    simp only [MainState.instances, List.length_append]
    rw [h3.2.1, h3.2.2, h2, hdp]
    simp [Option.toList]
    omega
  · rintro ⟨sg, hsg, hne⟩
    have hm1 : (step flags s env).devicePlugin = some m1 := by rw [h1]
    obtain ⟨m2, err, hS, _, _⟩ := stop_total m1 ev.stopRemove (hI1.2.2.1 m1 hm1)
    have h2 : step flags (step flags s env) ev =
        { s with pc := PC.exited, devicePlugin := some m2 } := by
      rw [h1]
      cases sg
      · exact absurd rfl hne
      all_goals simp [step, handleEvent, hsg, hS]
    rw [h2]
    simp [MainState.instances, hdp]


/-! ## Theorems: concrete runs -/

/-- C9: for every plugin instance and every finite sequence of health events, each
referencing a device of the instance's registry, delivered before the shutdown
signal fires: `ListAndWatch` is still blocked while the signal has not fired; when
it fires the call returns no error; it has sent the device list once at the start
(the registry as it was) and once after each health event; in the emission after
an event the referenced device is Unhealthy and every other device is as in the
previous emission; and every emission has the number of devices and the
identities of the registry. -/
theorem listAndWatch_emissions (m : FakeDevicePlugin) (ds : List Nat)
    (hreg : ∀ d ∈ ds, d < m.devs.length) :
    (ListAndWatch m (ds.map WatchEvent.health)).returned = none ∧
    (ListAndWatch m (ds.map WatchEvent.health ++ [WatchEvent.stop])).returned = some none ∧
    (ListAndWatch m (ds.map WatchEvent.health ++ [WatchEvent.stop])).sent.length =
      ds.length + 1 ∧
    (ListAndWatch m (ds.map WatchEvent.health ++ [WatchEvent.stop])).sent[0]? = some m.devs ∧
    (∀ k d : Nat, ds[k]? = some d →
      ∃ prev next : List Device,
        (ListAndWatch m (ds.map WatchEvent.health ++ [WatchEvent.stop])).sent[k]? = some prev ∧
        (ListAndWatch m (ds.map WatchEvent.health ++ [WatchEvent.stop])).sent[k + 1]? =
          some next ∧
        (next[d]?).map (fun dev => dev.Health) = some "Unhealthy".toList ∧
        ∀ j : Nat, j ≠ d → next[j]? = prev[j]?) ∧
    (∀ e ∈ (ListAndWatch m (ds.map WatchEvent.health ++ [WatchEvent.stop])).sent,
      e.length = m.devs.length ∧
        e.map (fun dev => dev.ID) = m.devs.map (fun dev => dev.ID)) := by
  have hstop := watchLoop_health_then_stop ds m.devs [m.devs]
  have hsent : (ListAndWatch m (ds.map WatchEvent.health ++ [WatchEvent.stop])).sent =
      m.devs :: registryAfter m.devs ds := by
    simpa [ListAndWatch] using hstop.2
  rw [hsent]
  refine ⟨(watchLoop_health_blocked ds m.devs [m.devs]).1, hstop.1,
    by simp [registryAfter_length], by simp, ?_, ?_⟩
  · intro k d hk
    exact registryAfter_step ds m.devs hreg k d hk
  · intro e he
    have hid := registryAfter_ids ds m.devs e he
    refine ⟨?_, hid⟩
    have := congrArg List.length hid
    simpa using this

/-- One health event for device 0 of the two-device registry of
`acme.test/widget`: two emissions. -/
theorem listAndWatch_emissions_witness :
    (∀ d ∈ [0], d < (NewFakeDevicePlugin "acme.test/widget".toList 2).devs.length) ∧
    (ListAndWatch (NewFakeDevicePlugin "acme.test/widget".toList 2)
      ([0].map WatchEvent.health ++ [WatchEvent.stop])).sent.length = 2 :=
  ⟨by decide,
    (listAndWatch_emissions (NewFakeDevicePlugin "acme.test/widget".toList 2) [0]
      (by decide)).2.2.1⟩

/-- Marking `acme.test/widget-0` unhealthy: the next emission lists it Unhealthy
and the other device unchanged, and the call returns no error on the shutdown
signal. -/
theorem listAndWatch_example :
    ListAndWatch (NewFakeDevicePlugin "acme.test/widget".toList 2)
        [WatchEvent.health 0, WatchEvent.stop] =
      { sent :=
          [[{ ID := "acme.test/widget-0".toList, Health := "Healthy".toList },
            { ID := "acme.test/widget-1".toList, Health := "Healthy".toList }],
           [{ ID := "acme.test/widget-0".toList, Health := "Unhealthy".toList },
            { ID := "acme.test/widget-1".toList, Health := "Healthy".toList }]],
        devs :=
          [{ ID := "acme.test/widget-0".toList, Health := "Unhealthy".toList },
           { ID := "acme.test/widget-1".toList, Health := "Healthy".toList }],
        returned := some none } := by
  decide

/-- After a successful bring-up `main` holds the started instance of the scenario;
three `Stop` calls in a row on it execute one close, and none on an instance that
was never started. -/
theorem stop_closes_once_witness :
    (run exampleFlags MainState.init
        [stepEnv serveOk Event.watcherError, stepEnv serveOk Event.watcherError,
          stepEnv serveOk Event.watcherError]).devicePlugin = some startedPlugin ∧
      startedPlugin.server.isSome = true ∧
      closeCalls startedPlugin
        [RemoveResult.removed, RemoveResult.notExist, RemoveResult.failed] = 1 ∧
      closeCalls (NewFakeDevicePlugin "acme.test/widget".toList 2)
        [RemoveResult.removed, RemoveResult.notExist, RemoveResult.failed] = 0 :=
  match stop_closes_once exampleFlags
      [stepEnv serveOk Event.watcherError, stepEnv serveOk Event.watcherError,
        stepEnv serveOk Event.watcherError]
      startedPlugin (NewFakeDevicePlugin "acme.test/widget".toList 2)
      RemoveResult.removed [RemoveResult.notExist, RemoveResult.failed]
      (by decide) (by decide) (by decide) with
  | ⟨⟨_, _, _, _, _, h⟩, _, h0⟩ => ⟨by decide, by decide, h, h0⟩

/-- After a successful bring-up the loop is at its `select`, and a HUP signal there
sets `restart` and leaves the rest of the state as it is. -/
theorem select_transitions_witness :
    (run exampleFlags MainState.init
        [stepEnv serveOk Event.watcherError, stepEnv serveOk Event.watcherError,
          stepEnv serveOk Event.watcherError]).pc = PC.select ∧
      step exampleFlags
          (run exampleFlags MainState.init
            [stepEnv serveOk Event.watcherError, stepEnv serveOk Event.watcherError,
              stepEnv serveOk Event.watcherError])
          (stepEnv serveOk (Event.sig Signal.SIGHUP)) =
        { run exampleFlags MainState.init
            [stepEnv serveOk Event.watcherError, stepEnv serveOk Event.watcherError,
              stepEnv serveOk Event.watcherError] with
          pc := PC.loopTop, restart := true } :=
  ⟨by decide,
    (select_transitions exampleFlags
      [stepEnv serveOk Event.watcherError, stepEnv serveOk Event.watcherError,
        stepEnv serveOk Event.watcherError]
      (stepEnv serveOk (Event.sig Signal.SIGHUP)) (by decide)).2.2.2.1 rfl⟩

/-- C3 (counterexample): with the node agent unreachable the first bring-up fails
(`Serve` returns the dial error of `Register`); the loop is then at its `select`
with `restart` still true, not at a second bring-up, and when the event it
receives there is a TERM signal it ends having constructed one instance only: no
second attempt was made before the loop waited for and consumed an event. -/
theorem failed_bring_up_then_select :
    (run exampleFlags MainState.init
        [stepEnv serveNoKubelet Event.watcherError,
          stepEnv serveNoKubelet Event.watcherError]).pc = PC.serve ∧
      (Serve (NewFakeDevicePlugin exampleFlags.resourceName exampleFlags.resourceNum)
        serveNoKubelet).map (fun r => r.2) = some (some Err.dial) ∧
      (run exampleFlags MainState.init
        [stepEnv serveNoKubelet Event.watcherError, stepEnv serveNoKubelet Event.watcherError,
          stepEnv serveNoKubelet Event.watcherError]).pc = PC.select ∧
      (run exampleFlags MainState.init
        [stepEnv serveNoKubelet Event.watcherError, stepEnv serveNoKubelet Event.watcherError,
          stepEnv serveNoKubelet Event.watcherError]).restart = true ∧
      (run exampleFlags MainState.init
        [stepEnv serveNoKubelet Event.watcherError, stepEnv serveNoKubelet Event.watcherError,
          stepEnv serveNoKubelet Event.watcherError,
          stepEnv serveNoKubelet (Event.sig Signal.SIGTERM)]).pc = PC.exited ∧
      (run exampleFlags MainState.init
        [stepEnv serveNoKubelet Event.watcherError, stepEnv serveNoKubelet Event.watcherError,
          stepEnv serveNoKubelet Event.watcherError,
          stepEnv serveNoKubelet (Event.sig Signal.SIGTERM)]).instances.length = 1 := by
  decide

/-- The first bring-up with the node agent unreachable: `restart` stays true and
the loop goes to its `select`. -/
theorem failed_bring_up_waits_for_event_witness :
    ((run exampleFlags MainState.init
        [stepEnv serveNoKubelet Event.watcherError,
          stepEnv serveNoKubelet Event.watcherError]).pc = PC.serve ∧
      ∀ m1 : FakeDevicePlugin,
        Serve (NewFakeDevicePlugin exampleFlags.resourceName exampleFlags.resourceNum)
          (stepEnv serveNoKubelet Event.watcherError).serve ≠ some (m1, none)) ∧
    (run exampleFlags MainState.init
      ([stepEnv serveNoKubelet Event.watcherError, stepEnv serveNoKubelet Event.watcherError] ++
        [stepEnv serveNoKubelet Event.watcherError])).restart = true ∧
    (run exampleFlags MainState.init
      ([stepEnv serveNoKubelet Event.watcherError, stepEnv serveNoKubelet Event.watcherError] ++
        [stepEnv serveNoKubelet Event.watcherError])).pc = PC.select :=
  have hfail : ∀ m1 : FakeDevicePlugin,
      Serve (NewFakeDevicePlugin exampleFlags.resourceName exampleFlags.resourceNum)
        (stepEnv serveNoKubelet Event.watcherError).serve ≠ some (m1, none) := by
    intro m1 h
    have hS : (Serve (NewFakeDevicePlugin exampleFlags.resourceName exampleFlags.resourceNum)
        (stepEnv serveNoKubelet Event.watcherError).serve).map (fun r => r.2) =
        some (some Err.dial) := by decide
    rw [h] at hS
    simp at hS
  have h := failed_bring_up_waits_for_event exampleFlags
    [stepEnv serveNoKubelet Event.watcherError, stepEnv serveNoKubelet Event.watcherError]
    (stepEnv serveNoKubelet Event.watcherError) (stepEnv serveOk Event.watcherError)
    (stepEnv serveOk Event.watcherError) (stepEnv serveOk Event.watcherError)
    (by decide) hfail
  ⟨⟨by decide, hfail⟩, h.1, h.2.1⟩


end DevicePlugin
